import Mathlib

/-!
Verification of the incremental scraping and synchronization engine of
`scraper.py`: slug resolution, key normalization, delta planning, the
candidate filter, platform extraction, the scroll loop, and per-game
failure isolation, shallowly embedded as executable Lean definitions.
Line numbers in the doc comments refer to `scraper.py`.
-/

namespace Scraper

/-- The apostrophe character, written via its code point. -/
def apoChar : Char := Char.ofNat 39

/-- ASCII whitespace characters matched by the regex whitespace class
(space, tab, newline, carriage return, vertical tab, form feed). -/
def isPySpace (c : Char) : Bool :=
  c = ' ' || c = '\t' || c = '\n' || c = '\r' || c = Char.ofNat 11 || c = Char.ofNat 12

/-- Characters removed by `normalize_game_name`: apostrophe, whitespace,
colon (the regex class of the substitution at line 116). -/
def isNormRemoved (c : Char) : Bool :=
  c = apoChar || c = ':' || isPySpace c

/-- Python `str.lower()` for ASCII text: lower-case each character. -/
def pyLower (s : String) : String := ⟨s.toList.map Char.toLower⟩

/-- Python `str.strip()` on a character list: drop whitespace at both ends. -/
def pyStrip (l : List Char) : List Char :=
  ((l.dropWhile isPySpace).reverse.dropWhile isPySpace).reverse

/-- `normalize_game_name(name)` for a string argument (lines 114 to 116):
strip the name, lower-case it, then delete every apostrophe, whitespace, and
colon character. -/
def normalize_game_name (s : String) : String :=
  ⟨((pyStrip s.toList).map Char.toLower).filter (fun c => !isNormRemoved c)⟩

/-- Characters kept by the final slug cleanup step: the class `[a-z0-9-]`. -/
def isSlugChar (c : Char) : Bool :=
  (decide ('a'.toNat ≤ c.toNat) && decide (c.toNat ≤ 'z'.toNat)) ||
  (decide ('0'.toNat ≤ c.toNat) && decide (c.toNat ≤ '9'.toNat)) ||
  c = '-'

/-- The generic slug pipeline of the source (lines 20 to 22): lower-case the
title, delete apostrophes and colons, replace each whitespace character with
a hyphen, then drop every character outside the class `[a-z0-9-]`. -/
def slugify (t : String) : String :=
  let l0 := t.toList.map Char.toLower
  let l1 := l0.filter (fun c => !(c = apoChar || c = ':'))
  let l2 := l1.map (fun c => if isPySpace c then '-' else c)
  ⟨l2.filter isSlugChar⟩

/-- Slug resolution (lines 16 to 22): the special case for the title whose
lower-casing is `"forspoken"` maps to the fixed slug `"project-athia"`;
every other title goes through `slugify`. -/
def resolve (t : String) : String :=
  if pyLower t = "forspoken" then "project-athia" else slugify t

/-- The base title Baldurs Gate with an apostrophe before the s, built by
concatenation around `apoChar`. -/
def baldursTitle : String := "Baldur" ++ ⟨[apoChar]⟩ ++ "s Gate"

/-- The same title with the apostrophe removed. -/
def baldursPlain : String := "baldurs gate"

/-- Delta planning (line 142): the pending titles are the titles of
`allTitles` whose normalized key does not occur among `processedKeys`, in
source order. -/
def plan (allTitles processedKeys : List String) : List String :=
  allTitles.filter (fun t => !(processedKeys.contains (normalize_game_name t)))

/-- A candidate suggestion record as extracted from one card (lines 61 to
90): title, URL, platform codes (lower-cased, badge order), metascore text
(with sentinel `"N/A"` when the score label is absent), and cover image. -/
structure Candidate where
  title : String
  url : String
  platforms : List String
  metascore : String
  image : String
deriving DecidableEq, Repr

/-- The platform allow-list (line 59). -/
def allowed_platforms : List String := ["playstation", "pc"]

/-- The page limit `limit = 60` (line 27), also the truncation bound. -/
def pageLimit : Nat := 60

/-- The filter test of line 77: a candidate is kept iff its metascore is not
the sentinel `"N/A"` and at least one allow-listed platform occurs in its
platform list. -/
def keepCandidate (c : Candidate) : Bool :=
  !(c.metascore = "N/A" || !(allowed_platforms.any (fun p => c.platforms.contains p)))

/-- The filter pipeline on the extracted candidates: drop the candidates
rejected by `keepCandidate` (line 77, via `continue`) and truncate the
result to `pageLimit` entries (line 96). -/
def filterPipeline (l : List Candidate) : List Candidate :=
  (l.filter keepCandidate).take pageLimit

/-- Python `str.split(sep)` for a single-character separator: split at every
occurrence, keeping empty segments. -/
def splitOnChar (sep : Char) : List Char → List (List Char)
  | [] => [[]]
  | c :: cs =>
    let r := splitOnChar sep cs
    if c = sep then [] :: r
    else
      match r with
      | [] => [[c]]
      | h :: t => (c :: h) :: t

/-- Whether `pat` is an initial segment of `l`. -/
def startsWithChars : List Char → List Char → Bool
  | [], _ => true
  | _ :: _, [] => false
  | p :: ps, c :: cs => p = c && startsWithChars ps cs

/-- Fuel-driven core of `removeOccurrences`: delete the non-overlapping
occurrences of `pat` left to right, as the Python string replace method with
an empty replacement does. -/
def removeOccAux (pat : List Char) : Nat → List Char → List Char
  | 0, l => l
  | _ + 1, [] => []
  | fuel + 1, c :: cs =>
    if startsWithChars pat (c :: cs) && !pat.isEmpty then
      removeOccAux pat fuel (List.drop pat.length (c :: cs))
    else
      c :: removeOccAux pat fuel cs

/-- Delete every non-overlapping occurrence of `pat` in `l`, scanning left
to right. -/
def removeOccurrences (pat l : List Char) : List Char :=
  removeOccAux pat l.length l

/-- The class-attribute marker stripped from a platform badge (line 71). -/
def platformMarker : List Char := "platforms__platform_".toList

/-- Platform code of one badge (lines 71 to 72): take the last
space-separated segment of the class attribute, delete the marker
substring, and lower-case the result. -/
def platformCodeOfClass (classAttr : String) : String :=
  ⟨(removeOccurrences platformMarker
      ((splitOnChar ' ' classAttr.toList).getLastD [])).map Char.toLower⟩

/-- Platform-list extraction for one card (lines 66 to 72): one code per
badge whose class attribute is present and non-empty (Python truthiness at
line 70), in badge order, with no de-duplication. -/
def extractPlatforms (attrs : List (Option String)) : List String :=
  attrs.filterMap fun a =>
    match a with
    | some s => if s = "" then none else some (platformCodeOfClass s)
    | none => none

/-- Two identical platform badges, as a page that repeats a badge would
yield them. -/
def dupBadgeAttrs : List (Option String) :=
  [some "platforms__platform platforms__platform_pc",
   some "platforms__platform platforms__platform_pc"]

/-- Fuel-driven scroll loop (lines 43 to 54). `h k` is the document height
measured after `k` scroll actions (`h 0` is the height read at line 41,
before the loop), `cards k` the number of loaded cards after `k` scrolls,
`lastHeight` the height recorded before the next scroll, and `i` the number
of scrolls already issued. The result is `some scrollCount` when the loop
breaks, `none` when the fuel runs out first. -/
def scrollLoopAux (h cards : Nat → Nat) (limit : Nat) :
    Nat → Nat → Nat → Option Nat
  | 0, _, _ => none
  | fuel + 1, lastHeight, i =>
    if h (i + 1) = lastHeight || decide (limit ≤ cards (i + 1)) then
      some (i + 1)
    else
      scrollLoopAux h cards limit fuel (h (i + 1)) (i + 1)

/-- The scroll loop run from its initial state: the recorded height is the
height before any scroll, and no scroll has been issued yet. -/
def scrollLoop (h cards : Nat → Nat) (limit fuel : Nat) : Option Nat :=
  scrollLoopAux h cards limit fuel (h 0) 0

/-- A per-game scraping failure (page-load timeout, missing suggestions
container, or any other exception raised while scraping one game). -/
structure ScrapeError where
  msg : String
deriving DecidableEq, Repr

/-- `scrape_rawg_suggestions` seen through its outer try and except blocks
(lines 30 to 102): a body that raises is caught and the function returns
the empty list; a body that succeeds returns its records. -/
def scrapeCaught (scrapeBody : String → Except ScrapeError (List Candidate))
    (t : String) : List Candidate :=
  match scrapeBody t with
  | .ok l => l
  | .error _ => []

/-- The per-game loop of `main` (lines 161 to 173): every pending game is
processed in order, each through `scrapeCaught`; no single outcome stops
the iteration. -/
def mainLoop (scrapeBody : String → Except ScrapeError (List Candidate))
    (pending : List String) : List (String × List Candidate) :=
  pending.map fun g => (g, scrapeCaught scrapeBody g)

/-- A dynamically-typed spreadsheet cell value, as `normalize_game_name`
receives it. -/
inductive PyValue where
  | str (s : String)
  | intVal (n : Int)
  | floatLike (num den : Int)
  | boolVal (b : Bool)
  | noneVal
deriving DecidableEq, Repr

/-- `normalize_game_name` on an arbitrary value (lines 114 to 116): the
isinstance guard returns `""` for every non-string input, otherwise the
string is normalized. -/
def normalize_game_name_py : PyValue → String
  | .str s => normalize_game_name s
  | _ => ""

/-- Separator class of the slug algorithm as the specification words it:
whitespace, apostrophe, or colon. -/
def isSpecSep (c : Char) : Bool := isPySpace c || c = apoChar || c = ':'

/-- Core of `collapseRuns`: the flag records whether the previous character
belonged to a separator run already replaced by a hyphen. -/
def collapseRunsAux : Bool → List Char → List Char
  | _, [] => []
  | inRun, c :: cs =>
    if isSpecSep c then
      if inRun then collapseRunsAux true cs else '-' :: collapseRunsAux true cs
    else c :: collapseRunsAux false cs

/-- Replace each maximal run of separator characters with one hyphen. -/
def collapseRuns (l : List Char) : List Char := collapseRunsAux false l

/-- Slug construction as the specification words it (stated only to compare
the specified algorithm with the implemented `slugify`): lower-case the
title, replace each run of whitespace, apostrophe, and colon characters
with a single hyphen, then drop every remaining character outside the
class `[a-z0-9-]`. -/
def specSlugify (t : String) : String :=
  ⟨(collapseRuns (t.toList.map Char.toLower)).filter isSlugChar⟩

/-- First stage of the amended slug description: apostrophes and colons are
deleted. -/
def amendedRemoveApoColon (l : List Char) : List Char :=
  l.filter fun c => !(c = apoChar || c = ':')

/-- Second stage of the amended slug description: each whitespace character
becomes one hyphen. -/
def amendedHyphenate (l : List Char) : List Char :=
  l.map fun c => if isPySpace c then '-' else c

/-- The amended slug algorithm assembled from its stages: lower-case the
title, delete apostrophes and colons, replace each whitespace character
with a hyphen, then drop every remaining character outside `[a-z0-9-]`. -/
def amendedSlugify (t : String) : String :=
  ⟨(amendedHyphenate (amendedRemoveApoColon (t.toList.map Char.toLower))).filter
      isSlugChar⟩

/-- The canonical character content of a title: lower-cased characters with
apostrophes, colons, and whitespace removed. Two titles differ only by
letter case, apostrophes, colons, or spacing exactly when their canonical
character contents agree. -/
def canonChars (s : String) : List Char :=
  (s.toList.map Char.toLower).filter (fun c => !isNormRemoved c)

/-- Lower-casing fixes every whitespace character. -/
theorem toLower_of_pySpace {c : Char} (h : isPySpace c = true) :
    Char.toLower c = c := by
  have hc : c = ' ' ∨ c = '\t' ∨ c = '\n' ∨ c = '\r' ∨
      c = Char.ofNat 11 ∨ c = Char.ofNat 12 := by
    simpa [isPySpace, or_assoc] using h
  rcases hc with h | h | h | h | h | h <;> subst h <;> decide

/-- Dropping a whitespace prefix does not change the canonical content. -/
theorem filter_lower_dropWhile (l : List Char) :
    ((l.dropWhile isPySpace).map Char.toLower).filter (fun c => !isNormRemoved c) =
      (l.map Char.toLower).filter (fun c => !isNormRemoved c) := by
  induction l with
  | nil => rfl
  | cons c cs ih =>
    by_cases hc : isPySpace c = true
    · rw [List.dropWhile_cons_of_pos hc, ih]
      have h1 : Char.toLower c = c := toLower_of_pySpace hc
      have h2 : isNormRemoved c = true := by simp [isNormRemoved, hc]
      simp [List.filter_cons, h1, h2]
    · rw [List.dropWhile_cons_of_neg hc]

/-- Stripping whitespace at both ends does not change the canonical
content. -/
theorem filter_lower_pyStrip (l : List Char) :
    ((pyStrip l).map Char.toLower).filter (fun c => !isNormRemoved c) =
      (l.map Char.toLower).filter (fun c => !isNormRemoved c) := by
  unfold pyStrip
  rw [List.map_reverse, List.filter_reverse, filter_lower_dropWhile,
    List.map_reverse, List.filter_reverse, List.reverse_reverse,
    filter_lower_dropWhile]

/-- Normalization computes exactly the canonical character content. -/
theorem normalize_eq_canonChars (s : String) :
    normalize_game_name s = ⟨canonChars s⟩ :=
  congrArg String.mk (filter_lower_pyStrip s.toList)

/-- Claim C1: delta planning selects exactly the titles whose normalized key
is absent from the processed keys, preserving source order (the pending
list is the corresponding filter of `allTitles` and a sublist of it), and
when the processed keys are the normalized keys of all titles the pending
list is empty. -/
theorem delta_planning_correct (allTitles processedKeys : List String) :
    plan allTitles processedKeys =
      allTitles.filter (fun t => !(processedKeys.contains (normalize_game_name t))) ∧
    (plan allTitles processedKeys).Sublist allTitles ∧
    (∀ t, t ∈ plan allTitles processedKeys ↔
      t ∈ allTitles ∧ normalize_game_name t ∉ processedKeys) ∧
    plan allTitles (allTitles.map normalize_game_name) = [] := by
  refine ⟨rfl, List.filter_sublist _, fun t => ?_, ?_⟩
  · simp [plan]
  · simp only [plan, List.filter_eq_nil_iff]
    intro t ht
    simp
    exact ⟨t, ht, rfl⟩

/-- Claim C2: a scraping body that raises for one game yields the empty
record list for that game, and the main loop still processes every pending
game in order, so the run is never aborted by a single failure. -/
theorem per_game_failure_isolated
    (scrapeBody : String → Except ScrapeError (List Candidate))
    (pending : List String) (g : String) (e : ScrapeError)
    (hg : scrapeBody g = Except.error e) :
    scrapeCaught scrapeBody g = [] ∧
    (mainLoop scrapeBody pending).map Prod.fst = pending ∧
    (mainLoop scrapeBody pending).length = pending.length := by
  refine ⟨?_, ?_, ?_⟩
  · simp [scrapeCaught, hg]
  · simp only [mainLoop, List.map_map]
    exact List.map_id pending
  · simp [mainLoop]

/-- Witness for claim C2: a body that times out on every game yields no
records for the first game, and both pending games are still processed. -/
theorem per_game_failure_isolated_witness :
    scrapeCaught (fun _ => Except.error ⟨"timeout"⟩) "Hades" = [] ∧
    (mainLoop (fun _ => Except.error ⟨"timeout"⟩) ["Hades", "Celeste"]).map Prod.fst
      = ["Hades", "Celeste"] ∧
    (mainLoop (fun _ => Except.error ⟨"timeout"⟩) ["Hades", "Celeste"]).length
      = (["Hades", "Celeste"] : List String).length :=
  per_game_failure_isolated (fun _ => Except.error ⟨"timeout"⟩)
    ["Hades", "Celeste"] "Hades" ⟨"timeout"⟩ rfl

/-- Claim C3: a candidate whose metascore is the sentinel is rejected by the
filter and never occurs in the pipeline output; a candidate whose platform
list meets no allow-listed platform is likewise rejected and never occurs
in the pipeline output; a candidate with metascore 85 and platform pc
passes the filter. -/
theorem filter_rules (a b c : Candidate) (l : List Candidate)
    (ha : a.metascore = "N/A")
    (hb : ∀ p ∈ allowed_platforms, p ∉ b.platforms)
    (hc1 : c.metascore = "85") (hc2 : "pc" ∈ c.platforms) :
    keepCandidate a = false ∧ a ∉ filterPipeline l ∧
    keepCandidate b = false ∧ b ∉ filterPipeline l ∧
    keepCandidate c = true := by
  have hka : keepCandidate a = false := by simp [keepCandidate, ha]
  have hkb : keepCandidate b = false := by
    simp [keepCandidate, allowed_platforms]
    intro _
    exact ⟨hb "playstation" (by simp [allowed_platforms]),
      hb "pc" (by simp [allowed_platforms])⟩
  have hnot : ∀ (x : Candidate), keepCandidate x = false → x ∉ filterPipeline l := by
    intro x hx hmem
    have := List.of_mem_filter (List.mem_of_mem_take hmem)
    rw [hx] at this
    exact Bool.false_ne_true this
  refine ⟨hka, hnot a hka, hkb, hnot b hkb, ?_⟩
  simp [keepCandidate, hc1, allowed_platforms]
  exact Or.inr hc2

/-- Witness for claim C3: concrete unscored, XBOX-only, and scored PC
candidates behave as the filter rules state, on a concrete input list. -/
theorem filter_rules_witness :
    keepCandidate ⟨"A", "u", ["pc"], "N/A", ""⟩ = false ∧
    (⟨"A", "u", ["pc"], "N/A", ""⟩ : Candidate) ∉
      filterPipeline [⟨"A", "u", ["pc"], "N/A", ""⟩,
        ⟨"B", "u", ["xbox"], "90", ""⟩, ⟨"C", "u", ["pc"], "85", ""⟩] ∧
    keepCandidate ⟨"B", "u", ["xbox"], "90", ""⟩ = false ∧
    (⟨"B", "u", ["xbox"], "90", ""⟩ : Candidate) ∉
      filterPipeline [⟨"A", "u", ["pc"], "N/A", ""⟩,
        ⟨"B", "u", ["xbox"], "90", ""⟩, ⟨"C", "u", ["pc"], "85", ""⟩] ∧
    keepCandidate ⟨"C", "u", ["pc"], "85", ""⟩ = true :=
  filter_rules ⟨"A", "u", ["pc"], "N/A", ""⟩ ⟨"B", "u", ["xbox"], "90", ""⟩
    ⟨"C", "u", ["pc"], "85", ""⟩
    [⟨"A", "u", ["pc"], "N/A", ""⟩, ⟨"B", "u", ["xbox"], "90", ""⟩,
      ⟨"C", "u", ["pc"], "85", ""⟩]
    rfl (by decide) rfl (by decide)

/-- Counterexample for claim C4: on the non-special title Baldurs Gate with
an apostrophe, the implemented slug deletes the apostrophe and yields
baldurs-gate, while the claimed run-to-hyphen rule yields baldur-s-gate, so
the claimed rule disagrees with the code. -/
theorem slug_rule_counterexample :
    pyLower baldursTitle ≠ "forspoken" ∧
    resolve baldursTitle = "baldurs-gate" ∧
    specSlugify baldursTitle = "baldur-s-gate" ∧
    resolve baldursTitle ≠ specSlugify baldursTitle :=
  ⟨by decide, by decide, by decide, by decide⟩

/-- Claim C4 as amended: for every title not in the special-case table, the
slug is obtained by lower-casing the title, deleting apostrophes and
colons, replacing each whitespace character with a hyphen, then dropping
every remaining character outside the class `[a-z0-9-]`. -/
theorem slug_rule_amended (t : String) (h : pyLower t ≠ "forspoken") :
    resolve t = amendedSlugify t := by
  unfold resolve
  rw [if_neg h]
  rfl

/-- Witness for the amended claim C4 on a concrete non-special title. -/
theorem slug_rule_amended_witness :
    resolve "Hollow Knight" = amendedSlugify "Hollow Knight" :=
  slug_rule_amended "Hollow Knight" (by decide)

/-- Claim C5: slug resolution is pure and deterministic, resolves the two
documented titles to their expected slugs, and maps every casing of the
special-case title to the fixed override slug. -/
theorem slug_resolution_pure (t : String) (h : pyLower t = "forspoken") :
    resolve t = resolve t ∧
    resolve "Hollow Knight" = "hollow-knight" ∧
    resolve "It Takes Two" = "it-takes-two" ∧
    resolve t = "project-athia" := by
  refine ⟨rfl, by decide, by decide, ?_⟩
  simp [resolve, h]

/-- Witness for claim C5 at an upper-cased spelling of the special title. -/
theorem slug_resolution_pure_witness :
    resolve "FORSPOKEN" = resolve "FORSPOKEN" ∧
    resolve "Hollow Knight" = "hollow-knight" ∧
    resolve "It Takes Two" = "it-takes-two" ∧
    resolve "FORSPOKEN" = "project-athia" :=
  slug_resolution_pure "FORSPOKEN" (by decide)

/-- Claim C6: two titles that differ only by letter case, apostrophes,
colons, or spacing (that is, with equal canonical character content)
normalize to the same key; in particular the God of War and Baldurs Gate
example pairs normalize equally. -/
theorem normalized_key_equality (s t : String) (h : canonChars s = canonChars t) :
    normalize_game_name s = normalize_game_name t ∧
    normalize_game_name "God of War" = normalize_game_name "god of war" ∧
    normalize_game_name baldursTitle = normalize_game_name baldursPlain := by
  refine ⟨?_, by decide, by decide⟩
  rw [normalize_eq_canonChars, normalize_eq_canonChars, h]

/-- Witness for claim C6 on the concrete example pair. -/
theorem normalized_key_equality_witness :
    normalize_game_name "God of War" = normalize_game_name "god of war" ∧
    normalize_game_name "God of War" = normalize_game_name "god of war" ∧
    normalize_game_name baldursTitle = normalize_game_name baldursPlain :=
  normalized_key_equality "God of War" "god of war" (by decide)

/-- Claim C7: the filter pipeline (drop sentinel scores, drop candidates
with no allowed platform, truncate to the page limit) is idempotent:
applied to its own output it returns that output unchanged. -/
theorem filter_pipeline_idempotent (l : List Candidate) :
    filterPipeline (filterPipeline l) = filterPipeline l := by
  unfold filterPipeline
  rw [List.filter_eq_self.mpr, List.take_take, Nat.min_self]
  intro a ha
  exact List.of_mem_filter (List.mem_of_mem_take ha)

/-- Helper for claim C8: from any loop state with `j ≤ N` scrolls already
issued and at least `N + 1 - j` fuel left, the loop halts having issued at
most `N + 1` scrolls in total. -/
theorem scrollLoopAux_halts (h cards : Nat → Nat) (limit N : Nat)
    (hstab : ∀ k, N ≤ k → h k = h N) :
    ∀ fuel j, j ≤ N → N + 1 ≤ j + fuel →
      ∃ m, m ≤ N + 1 ∧ scrollLoopAux h cards limit fuel (h j) j = some m := by
  intro fuel
  induction fuel with
  | zero => intro j hj hfj; omega
  | succ fuel ih =>
    intro j hj hfj
    by_cases hbreak : h (j + 1) = h j ∨ limit ≤ cards (j + 1)
    · refine ⟨j + 1, by omega, ?_⟩
      simp only [scrollLoopAux]
      rcases hbreak with hb | hb <;> simp [hb]
    · push_neg at hbreak
      have hjN : j < N := by
        rcases Nat.lt_or_ge j N with h1 | h2
        · exact h1
        · exfalso
          have hjeq : j = N := Nat.le_antisymm hj h2
          apply hbreak.1
          rw [hjeq, hstab (N + 1) (by omega)]
      obtain ⟨m, hm, hrec⟩ := ih (j + 1) (by omega) (by omega)
      refine ⟨m, hm, ?_⟩
      simp only [scrollLoopAux]
      rw [if_neg ?_]
      · exact hrec
      · simp only [Bool.or_eq_true, decide_eq_true_eq]
        push_neg
        exact hbreak

/-- Claim C8: on a page whose measured height stabilizes after N scroll
cycles, the scroll loop (for every card-count sequence and any fuel of at
least N + 1 iterations) halts after issuing at most N + 1 scroll actions. -/
theorem scroll_loop_halts (h cards : Nat → Nat) (limit N fuel : Nat)
    (hstab : ∀ k, N ≤ k → h k = h N) (hfuel : N + 1 ≤ fuel) :
    ∃ m, m ≤ N + 1 ∧ scrollLoop h cards limit fuel = some m :=
  scrollLoopAux_halts h cards limit N hstab fuel 0 (Nat.zero_le N) (by omega)

/-- Witness for claim C8: a page of constant height stabilizes after zero
cycles and the loop halts after one scroll. -/
theorem scroll_loop_halts_witness :
    ∃ m, m ≤ 0 + 1 ∧ scrollLoop (fun _ => 5) (fun _ => 0) 60 4 = some m :=
  scroll_loop_halts (fun _ => 5) (fun _ => 0) 60 0 4 (fun _ _ => rfl) (by omega)

/-- Counterexample for claim C9: a card with two identical platform badges
yields the platform list pc, pc, which contains a duplicate, so extracted
platform lists are not de-duplicated. -/
theorem platforms_nodup_counterexample :
    extractPlatforms dupBadgeAttrs = ["pc", "pc"] ∧
    ¬ (extractPlatforms dupBadgeAttrs).Nodup :=
  ⟨by decide, by decide⟩

/-- Claim C9 as amended: the platforms field is an ordered list with one
lower-cased code per present non-empty badge class attribute, in badge
order; no de-duplication is performed, so duplicate badges yield duplicate
entries. -/
theorem platforms_extraction_amended (attrs : List (Option String)) :
    extractPlatforms attrs =
      ((attrs.filterMap id).filter (fun s => !(s = ""))).map platformCodeOfClass := by
  induction attrs with
  | nil => rfl
  | cons a rest ih =>
    cases a with
    | none => simpa [extractPlatforms, List.filterMap_cons] using ih
    | some s =>
      by_cases hs : s = "" <;>
        simpa [extractPlatforms, List.filterMap_cons, List.filter_cons, hs] using ih

/-- Claim C10: `normalize_game_name` maps every non-string input to the
empty string (the isinstance guard; the function is total, so a non-string
entry contributes the empty key to delta planning instead of raising). -/
theorem normalize_nonstring_empty (v : PyValue) (h : ∀ s, v ≠ PyValue.str s) :
    normalize_game_name_py v = "" := by
  cases v
  case str s => exact absurd rfl (h s)
  all_goals rfl

/-- Witness for claim C10 at the integer value 3. -/
theorem normalize_nonstring_empty_witness :
    normalize_game_name_py (PyValue.intVal 3) = "" :=
  normalize_nonstring_empty (PyValue.intVal 3) (fun _ hs => PyValue.noConfusion hs)

end Scraper
